import Mathlib

set_option maxRecDepth 100000

/-
Shallow embedding of the chipy8 CHIP-8 interpreter core (src/chip8.rs).

Machine integers are modelled as Nat with explicit `% 256` (u8) and
`% 65536` (u16) where the Rust code can wrap.  Fixed arrays (memory,
registers, stack, display) are modelled as total functions Nat → Nat;
the Rust arrays are u8/u16-valued, so claims add byte-range hypotheses
where the values matter.  The `canvas` field (a terminal-rendering
side channel) and the retained `rom` handle carry no interpreter
state and are omitted.  The one random instruction (Cxnn) takes its
random byte as an explicit oracle argument of `step`.
-/

namespace Chipy8

/-- The 80-byte hexadecimal font table `CHARACTERS` (chip8.rs lines 19-36). -/
def CHARACTERS : List Nat := [
  0xF0, 0x90, 0x90, 0x90, 0xF0,
  0x20, 0x60, 0x20, 0x20, 0x70,
  0xF0, 0x10, 0xF0, 0x80, 0xF0,
  0xF0, 0x10, 0xF0, 0x10, 0xF0,
  0x90, 0x90, 0xF0, 0x10, 0x10,
  0xF0, 0x80, 0xF0, 0x10, 0xF0,
  0xF0, 0x80, 0xF0, 0x90, 0xF0,
  0xF0, 0x10, 0x20, 0x40, 0x40,
  0xF0, 0x90, 0xF0, 0x90, 0xF0,
  0xF0, 0x90, 0xF0, 0x10, 0xF0,
  0xF0, 0x90, 0xF0, 0x90, 0x90,
  0xE0, 0x90, 0xE0, 0x90, 0xE0,
  0xF0, 0x80, 0x80, 0x80, 0xF0,
  0xE0, 0x90, 0x90, 0x90, 0xE0,
  0xF0, 0x80, 0xF0, 0x80, 0xF0,
  0xF0, 0x80, 0xF0, 0x80, 0x80]

/-- Emulator state (struct `Chip8`, chip8.rs lines 48-66).  Arrays are
total functions; u8/u16 fields are Nats kept in range by the operations. -/
structure Chip8 where
  memory : Nat → Nat
  registers : Nat → Nat
  i : Nat
  input : Nat
  delay : Nat
  sound : Nat
  program_counter : Nat
  stack : Nat → Nat
  stack_pointer : Nat
  display : Nat → Nat

/-- Point update of a function-modelled array. -/
def updFn (f : Nat → Nat) (k v : Nat) : Nat → Nat :=
  fun a => if a = k then v else f a

/-- `copy_from_slice` into `[start, start+data.length)`. -/
def writeSlice (m : Nat → Nat) (start : Nat) (data : List Nat) : Nat → Nat :=
  fun a => if start ≤ a ∧ a < start + data.length then data.getD (a - start) 0 else m a

/-- `Chip8::new` (chip8.rs lines 81-103): zero memory, copy the ROM bytes
to 0x200, copy the font table to [0,80), zero everything else,
PC = 0x200.  The ROM is its byte list (`rom.contents`). -/
def Chip8.new (rom : List Nat) : Chip8 :=
  { memory := writeSlice (writeSlice (fun _ => 0) 0x200 rom) 0 CHARACTERS
    registers := fun _ => 0
    i := 0
    input := 0
    delay := 0
    sound := 0
    program_counter := 0x200
    stack := fun _ => 0
    stack_pointer := 0
    display := fun _ => 0 }

/-- `assemble_addr` (chip8.rs lines 455-458): `((a2 << 4) | a3) as u16`
then `((a1 as u16) << 8) | low`; the mods model the u8/u16 widths. -/
def assemble_addr (a1 a2 a3 : Nat) : Nat :=
  ((a1 <<< 8) ||| (((a2 <<< 4) ||| a3) % 256)) % 65536

/-- `Chip8::set_addr` (chip8.rs lines 104-106): PC := addr − 2 with
u16 wrapping subtraction. -/
def Chip8.set_addr (s : Chip8) (a1 a2 a3 : Nat) : Chip8 :=
  { s with program_counter := (assemble_addr a1 a2 a3 + 65536 - 2) % 65536 }

/-- Decoded operations, one constructor per arm of the `match (n1,n2,n3,n4)`
in `Chip8::step` (chip8.rs lines 124-260); constructors keep exactly the
nibbles the arm binds (so `op5xy` has no 4th nibble and `op8xy6`/`op8xyE`
have no y, matching the wildcard patterns in the source). -/
inductive Op where
  | op00E0
  | op00EE
  | op1nnn (a1 a2 a3 : Nat)
  | op2nnn (a1 a2 a3 : Nat)
  | op3xnn (x k1 k2 : Nat)
  | op4xnn (x k1 k2 : Nat)
  | op5xy (x y : Nat)
  | op6xnn (x k1 k2 : Nat)
  | op7xnn (x k1 k2 : Nat)
  | op8xy0 (x y : Nat)
  | op8xy1 (x y : Nat)
  | op8xy2 (x y : Nat)
  | op8xy3 (x y : Nat)
  | op8xy4 (x y : Nat)
  | op8xy5 (x y : Nat)
  | op8xy6 (x : Nat)
  | op8xy7 (x y : Nat)
  | op8xyE (x : Nat)
  | op9xy0 (x y : Nat)
  | opAnnn (a1 a2 a3 : Nat)
  | opBnnn (a1 a2 a3 : Nat)
  | opCxnn (x k1 k2 : Nat)
  | opDxyn (x y n : Nat)
  | opEx9E (x : Nat)
  | opExA1 (x : Nat)
  | opFx07 (x : Nat)
  | opFx0A (x : Nat)
  | opFx15 (x : Nat)
  | opFx18 (x : Nat)
  | opFx1E (x : Nat)
  | opFx29 (x : Nat)
  | opFx33 (x : Nat)
  | opFx55 (x : Nat)
  | opFx65 (x : Nat)
deriving DecidableEq

/-- The decode half of the `match` in `Chip8::step`: same patterns in the
same order; `none` is the `_ => todo!(..)` default arm. -/
def decode (n1 n2 n3 n4 : Nat) : Option Op :=
  match n1, n2, n3, n4 with
  | 0, 0, 0x0E, 0x00 => some .op00E0
  | 0, 0, 0x0E, 0x0E => some .op00EE
  | 0x01, a1, a2, a3 => some (.op1nnn a1 a2 a3)
  | 0x02, a1, a2, a3 => some (.op2nnn a1 a2 a3)
  | 0x03, x, k1, k2 => some (.op3xnn x k1 k2)
  | 0x04, x, k1, k2 => some (.op4xnn x k1 k2)
  | 0x05, x, y, _ => some (.op5xy x y)
  | 0x06, x, k1, k2 => some (.op6xnn x k1 k2)
  | 0x07, x, k1, k2 => some (.op7xnn x k1 k2)
  | 0x08, x, y, 0 => some (.op8xy0 x y)
  | 0x08, x, y, 1 => some (.op8xy1 x y)
  | 0x08, x, y, 2 => some (.op8xy2 x y)
  | 0x08, x, y, 3 => some (.op8xy3 x y)
  | 0x08, x, y, 4 => some (.op8xy4 x y)
  | 0x08, x, y, 5 => some (.op8xy5 x y)
  | 0x08, x, _, 6 => some (.op8xy6 x)
  | 0x08, x, y, 7 => some (.op8xy7 x y)
  | 0x08, x, _, 0x0E => some (.op8xyE x)
  | 0x09, x, y, 0 => some (.op9xy0 x y)
  | 0x0A, a1, a2, a3 => some (.opAnnn a1 a2 a3)
  | 0x0B, a1, a2, a3 => some (.opBnnn a1 a2 a3)
  | 0x0C, x, k1, k2 => some (.opCxnn x k1 k2)
  | 0x0D, x, y, n => some (.opDxyn x y n)
  | 0x0E, x, 9, 0x0E => some (.opEx9E x)
  | 0x0E, x, 0x0A, 1 => some (.opExA1 x)
  | 0x0F, x, 0, 7 => some (.opFx07 x)
  | 0x0F, x, 0, 0x0A => some (.opFx0A x)
  | 0x0F, x, 1, 5 => some (.opFx15 x)
  | 0x0F, x, 1, 8 => some (.opFx18 x)
  | 0x0F, x, 1, 0x0E => some (.opFx1E x)
  | 0x0F, x, 2, 0x09 => some (.opFx29 x)
  | 0x0F, x, 3, 3 => some (.opFx33 x)
  | 0x0F, x, 5, 5 => some (.opFx55 x)
  | 0x0F, x, 6, 5 => some (.opFx65 x)
  | _, _, _, _ => none

/-- The display byte index `px / 8 + ((py + i) * 8)` touched by row `i` of a
draw (chip8.rs line 211); `px`, `py`, `i` are u8, so `py + i`, the product
by 8 and the final sum all wrap at 256. -/
def drawIdx (px py i : Nat) : Nat :=
  (px / 8 + (((py + i) % 256) * 8) % 256) % 256

/-- One iteration of the Dxyn draw loop (chip8.rs lines 208-226), acting on
the accumulated (display, changed) pair.  `!fin` on u8 is `fin ^^^ 255`. -/
def drawRow (px py spriteBase : Nat) (mem : Nat → Nat)
    (acc : (Nat → Nat) × Bool) (i : Nat) : (Nat → Nat) × Bool :=
  let idx := drawIdx px py i
  let current_screen := acc.1 idx
  let current_sprite := mem (spriteBase + i)
  let fin := current_screen ^^^ current_sprite
  (updFn acc.1 idx fin, acc.2 || decide ((current_screen &&& (fin ^^^ 255)) ≠ 0))

/-- The execute half of the `match` in `Chip8::step` (chip8.rs lines
124-260), one equation per arm, preserving the source's sequencing of
register/flag writes.  `rand` is the byte drawn by `rand::random::<u8>()`
in the Cxnn arm. -/
def exec (op : Op) (rand : Nat) (s : Chip8) : Chip8 :=
  match op with
  | .op00E0 => { s with display := fun _ => 0 }
  | .op00EE =>
      { s with program_counter := s.stack s.stack_pointer
               stack_pointer := (s.stack_pointer + 255) % 256 }
  | .op1nnn a1 a2 a3 => s.set_addr a1 a2 a3
  | .op2nnn a1 a2 a3 =>
      let sp := (s.stack_pointer + 1) % 256
      Chip8.set_addr
        { s with stack_pointer := sp
                 stack := updFn s.stack sp s.program_counter } a1 a2 a3
  | .op3xnn x k1 k2 =>
      if s.registers x = (k1 <<< 4) ||| k2 then
        { s with program_counter := (s.program_counter + 2) % 65536 }
      else s
  | .op4xnn x k1 k2 =>
      if s.registers x ≠ (k1 <<< 4) ||| k2 then
        { s with program_counter := (s.program_counter + 2) % 65536 }
      else s
  | .op5xy x y =>
      if s.registers x = s.registers y then
        { s with program_counter := (s.program_counter + 2) % 65536 }
      else s
  | .op6xnn x k1 k2 => { s with registers := updFn s.registers x ((k1 <<< 4) ||| k2) }
  | .op7xnn x k1 k2 =>
      { s with registers := updFn s.registers x ((s.registers x + ((k1 <<< 4) ||| k2)) % 256) }
  | .op8xy0 x y =>
      { s with registers := updFn s.registers x ((s.registers x + s.registers y) % 256) }
  | .op8xy1 x y => { s with registers := updFn s.registers x (s.registers x ||| s.registers y) }
  | .op8xy2 x y => { s with registers := updFn s.registers x (s.registers x &&& s.registers y) }
  | .op8xy3 x y => { s with registers := updFn s.registers x (s.registers x ^^^ s.registers y) }
  | .op8xy4 x y =>
      let value := (s.registers x + s.registers y) % 256
      let overflow : Nat := if 256 ≤ s.registers x + s.registers y then 1 else 0
      { s with registers := updFn (updFn s.registers x value) 15 overflow }
  | .op8xy5 x y =>
      let value := (s.registers x + 256 - s.registers y) % 256
      let notBorrow : Nat := if s.registers x < s.registers y then 0 else 1
      { s with registers := updFn (updFn s.registers x value) 15 notBorrow }
  | .op8xy6 x =>
      let r1 := updFn s.registers 15 (s.registers x ||| 1)
      { s with registers := updFn r1 x (r1 x >>> 1) }
  | .op8xy7 x y =>
      let value := (s.registers y + 256 - s.registers x) % 256
      let notBorrow : Nat := if s.registers y < s.registers x then 0 else 1
      { s with registers := updFn (updFn s.registers x value) 15 notBorrow }
  | .op8xyE x =>
      let r1 := updFn s.registers 15 (s.registers x ||| 8)
      { s with registers := updFn r1 x ((r1 x <<< 1) % 256) }
  | .op9xy0 x y =>
      if s.registers x ≠ s.registers y then
        { s with program_counter := (s.program_counter + 2) % 65536 }
      else s
  | .opAnnn a1 a2 a3 => { s with i := assemble_addr a1 a2 a3 }
  | .opBnnn a1 a2 a3 =>
      { s with program_counter := (s.registers 0 + assemble_addr a1 a2 a3) % 65536 }
  | .opCxnn x k1 k2 =>
      { s with registers := updFn s.registers x ((rand % 256) &&& ((k1 <<< 4) ||| k2)) }
  | .opDxyn x y n =>
      let px := s.registers x
      let py := s.registers y
      let res := (List.range n).foldl (drawRow px py s.i s.memory) (s.display, false)
      { s with display := res.1
               registers := updFn s.registers 15 (if res.2 then 1 else 0) }
  | .opEx9E x =>
      if s.input = s.registers x then
        { s with program_counter := (s.program_counter + 2) % 65536 }
      else s
  | .opExA1 x =>
      if s.input ≠ s.registers x then
        { s with program_counter := (s.program_counter + 2) % 65536 }
      else s
  | .opFx07 x => { s with registers := updFn s.registers x s.delay }
  | .opFx0A x => { s with registers := updFn s.registers x s.input }
  | .opFx15 x => { s with delay := s.registers x }
  | .opFx18 x => { s with sound := s.registers x }
  | .opFx1E x => { s with i := (s.i + s.registers x) % 65536 }
  | .opFx29 x => { s with i := (x * 5) % 65536 }
  | .opFx33 x =>
      let val := s.registers x
      let m1 := updFn s.memory s.i (val / 100)
      let m2 := updFn m1 (s.i + 1) ((val % 100) / 10)
      { s with memory := updFn m2 (s.i + 2) (val % 10) }
  | .opFx55 x =>
      { s with memory :=
          (List.range (x + 1)).foldl (fun m j => updFn m (s.i + j) (s.registers j)) s.memory }
  | .opFx65 x =>
      { s with registers :=
          (List.range (x + 1)).foldl (fun r j => updFn r j (s.memory (s.i + j))) s.registers }

/-- The error signalled by the `_ => { println!(..); todo!(..) }` default
arm (chip8.rs lines 262-268): the run aborts, reporting the four fetched
nibbles (and nothing else). -/
inductive Chip8Error where
  | unimplemented (n1 n2 n3 n4 : Nat)
deriving DecidableEq

/-- The fetch phase of `Chip8::step` (chip8.rs lines 115-120): two bytes at
PC and PC+1 (u16 increment) split into four nibbles by mask and shift. -/
def Chip8.fetchNibbles (s : Chip8) : Nat × Nat × Nat × Nat :=
  let byte_1 := s.memory s.program_counter
  let byte_2 := s.memory ((s.program_counter + 1) % 65536)
  (((byte_1 &&& 0xF0) >>> 4), (byte_1 &&& 0x0F), ((byte_2 &&& 0xF0) >>> 4), (byte_2 &&& 0x0F))

/-- The tail of `Chip8::step` (chip8.rs lines 308-314): unconditional
`program_counter += 2` (u16), then decrement each timer if nonzero. -/
def Chip8.finishCycle (t : Chip8) : Chip8 :=
  { t with program_counter := (t.program_counter + 2) % 65536
           delay := if 0 < t.delay then t.delay - 1 else t.delay
           sound := if 0 < t.sound then t.sound - 1 else t.sound }

/-- `Chip8::step` (chip8.rs lines 114-317): fetch, decode, execute, advance
PC, tick timers; the default decode arm aborts the run. -/
def Chip8.step (rand : Nat) (s : Chip8) : Except Chip8Error Chip8 :=
  let ns := s.fetchNibbles
  match decode ns.1 ns.2.1 ns.2.2.1 ns.2.2.2 with
  | none => Except.error (Chip8Error.unimplemented ns.1 ns.2.1 ns.2.2.1 ns.2.2.2)
  | some op => Except.ok (Chip8.finishCycle (exec op rand s))

/-- `n` consecutive calls of `step`, aborting at the first error; the random
oracle is a function of the step number. -/
def stepN (rand : Nat → Nat) : Nat → Chip8 → Except Chip8Error Chip8
  | 0, s => Except.ok s
  | n + 1, s => (Chip8.step (rand n) s).bind (stepN rand n)

/-- The observable outcome the spec ascribes to the skip family
(3xnn/4xnn/5xy0/9xy0): PC advances by 4 when `cond` holds and by 2
otherwise, and nothing else changes apart from the end-of-step timer
decrement. -/
def SkipOutcome (s s' : Chip8) (cond : Prop) [Decidable cond] : Prop :=
  s'.program_counter = (if cond then s.program_counter + 4 else s.program_counter + 2) ∧
  s'.registers = s.registers ∧
  s'.memory = s.memory ∧
  s'.stack = s.stack ∧
  s'.display = s.display ∧
  s'.i = s.i ∧
  s'.input = s.input ∧
  s'.stack_pointer = s.stack_pointer ∧
  s'.delay = (if 0 < s.delay then s.delay - 1 else s.delay) ∧
  s'.sound = (if 0 < s.sound then s.sound - 1 else s.sound)

/-- A freshly constructed machine whose ROM is the given program bytes
(what `Chip8::new` yields after loading a ROM, minus the font table,
which no concrete scenario below reads). -/
def mkState (prog : List Nat) : Chip8 :=
  { memory := writeSlice (fun _ => 0) 0x200 prog
    registers := fun _ => 0
    i := 0
    input := 0
    delay := 0
    sound := 0
    program_counter := 0x200
    stack := fun _ => 0
    stack_pointer := 0
    display := fun _ => 0 }

/-- Concrete input for C1: instruction Fx29 with x = 0 while V0 = 7. -/
def c1state : Chip8 :=
  { mkState [0xF0, 0x29] with registers := updFn (fun _ => 0) 0 7 }

/-- Concrete input for C2: the unimplemented tuple (0,1,2,3) fetched at
PC = 0x200. -/
def c2stateA : Chip8 := mkState [0x01, 0x23]

/-- Concrete input for C2: the same unimplemented tuple fetched at a
different program counter, PC = 0x300. -/
def c2stateB : Chip8 :=
  { mkState [] with memory := writeSlice (fun _ => 0) 0x300 [0x01, 0x23]
                    program_counter := 0x300 }

/-- Concrete program for the LIFO half of C4: calls at 0x200, 0x300,
0x400, 0x500 (each targeting the next site), a RET at the final target
0x600, and RETs at each return landing site 0x502, 0x402, 0x302. -/
def c4mem : Nat → Nat :=
  writeSlice (writeSlice (writeSlice (writeSlice (writeSlice (writeSlice (writeSlice (writeSlice
    (fun _ => 0)
    0x200 [0x23, 0x00]) 0x300 [0x24, 0x00]) 0x400 [0x25, 0x00]) 0x500 [0x26, 0x00])
    0x600 [0x00, 0xEE]) 0x502 [0x00, 0xEE]) 0x402 [0x00, 0xEE]) 0x302 [0x00, 0xEE]

/-- Machine running the four-deep call/return program of C4. -/
def c4state : Chip8 := { mkState [] with memory := c4mem }

/-- Concrete input for the C4 witness: a call to 0x300 where a RET sits. -/
def c4wstate : Chip8 :=
  { mkState [] with
      memory := writeSlice (writeSlice (fun _ => 0) 0x200 [0x23, 0x00]) 0x300 [0x00, 0xEE] }

/-- Concrete input for C5: instruction 3xnn with x = 0, nn = 0, V0 = 0
(skip condition holds). -/
def c5state : Chip8 := mkState [0x30, 0x00]

/-- Concrete input for C7's counterexample: Dxyn with n = 1 drawing the
all-zero sprite byte memory[I] = 0 twice in a row from an all-zero
display. -/
def c7state : Chip8 := mkState [0xD0, 0x01, 0xD0, 0x01]

/-- Concrete input for the C7 witness: the same double draw but with a
nonzero sprite byte 0xFF at I = 0x250. -/
def c7wstate : Chip8 :=
  { mkState [] with
      memory := writeSlice (writeSlice (fun _ => 0) 0x200 [0xD0, 0x01, 0xD0, 0x01]) 0x250 [0xFF]
      i := 0x250 }

/-- Concrete input for C8: a RET fetched with stack pointer 0. -/
def c8state : Chip8 := mkState [0x00, 0xEE]

/-- Concrete input for C9: instruction 5xyk with k = 3 ≠ 0 (x = 1, y = 2,
V1 = V2 = 0). -/
def c9state : Chip8 := mkState [0x51, 0x23]

/-- Concrete input for C10: Fx55 with x = 1, I = 0x300, V0 = 0xAA,
V1 = 0xBB. -/
def c10state : Chip8 :=
  { mkState [0xF1, 0x55] with
      i := 0x300
      registers := updFn (updFn (fun _ => 0) 0 0xAA) 1 0xBB }

/-- Concrete input for the C6 witness: delay = 3, sound = 0 while stepping
a 6xnn instruction. -/
def c6state : Chip8 := { mkState [0x60, 0x05] with delay := 3 }

theorem updFn_self (f : Nat → Nat) (k v : Nat) : updFn f k v k = v := by
  simp [updFn]

theorem updFn_ne (f : Nat → Nat) (k v a : Nat) (h : a ≠ k) : updFn f k v a = f a := by
  simp [updFn, h]

theorem step_of_decode (rand : Nat) (s : Chip8) (n1 n2 n3 n4 : Nat) (op : Op)
    (hf : s.fetchNibbles = (n1, n2, n3, n4)) (hd : decode n1 n2 n3 n4 = some op) :
    Chip8.step rand s = Except.ok (Chip8.finishCycle (exec op rand s)) := by
  simp only [Chip8.step, hf, hd]

theorem step_of_decode_none (rand : Nat) (s : Chip8) (n1 n2 n3 n4 : Nat)
    (hf : s.fetchNibbles = (n1, n2, n3, n4)) (hd : decode n1 n2 n3 n4 = none) :
    Chip8.step rand s = Except.error (Chip8Error.unimplemented n1 n2 n3 n4) := by
  simp only [Chip8.step, hf, hd]

theorem fetch_lo1_le (s : Chip8) (n1 n2 n3 n4 : Nat)
    (hf : s.fetchNibbles = (n1, n2, n3, n4)) : n2 ≤ 15 := by
  have h := congrArg (fun p => p.2.1) hf
  simp only [Chip8.fetchNibbles] at h
  exact h ▸ Nat.and_le_right

theorem fetch_lo2_le (s : Chip8) (n1 n2 n3 n4 : Nat)
    (hf : s.fetchNibbles = (n1, n2, n3, n4)) : n4 ≤ 15 := by
  have h := congrArg (fun p => p.2.2.2) hf
  simp only [Chip8.fetchNibbles] at h
  exact h ▸ Nat.and_le_right

theorem getD_lt_of_forall (data : List Nat) (B : Nat) (h0 : 0 < B)
    (hb : ∀ b ∈ data, b < B) (k : Nat) : data.getD k 0 < B := by
  induction data generalizing k with
  | nil => simpa [List.getD] using h0
  | cons a t ih =>
    cases k with
    | zero => exact hb a (by simp)
    | succ k => exact ih (fun b hb' => hb b (by simp [hb'])) k

theorem writeSlice_lt (m : Nat → Nat) (st : Nat) (data : List Nat) (B : Nat)
    (hm : ∀ a, m a < B) (h0 : 0 < B) (hb : ∀ b ∈ data, b < B) :
    ∀ a, writeSlice m st data a < B := by
  intro a
  unfold writeSlice
  split
  · exact getD_lt_of_forall data B h0 hb _
  · exact hm a

theorem finishCycle_memory (t : Chip8) : (Chip8.finishCycle t).memory = t.memory := rfl

theorem finishCycle_registers (t : Chip8) :
    (Chip8.finishCycle t).registers = t.registers := rfl

theorem finishCycle_i (t : Chip8) : (Chip8.finishCycle t).i = t.i := rfl

theorem finishCycle_pc (t : Chip8) :
    (Chip8.finishCycle t).program_counter = (t.program_counter + 2) % 65536 := rfl

theorem finishCycle_sp (t : Chip8) :
    (Chip8.finishCycle t).stack_pointer = t.stack_pointer := rfl

theorem finishCycle_stack (t : Chip8) : (Chip8.finishCycle t).stack = t.stack := rfl

theorem finishCycle_display (t : Chip8) : (Chip8.finishCycle t).display = t.display := rfl

theorem exec_call_memory (a1 a2 a3 rand : Nat) (s : Chip8) :
    (exec (.op2nnn a1 a2 a3) rand s).memory = s.memory := by
  simp only [exec, Chip8.set_addr]

theorem exec_call_pc (a1 a2 a3 rand : Nat) (s : Chip8) :
    (exec (.op2nnn a1 a2 a3) rand s).program_counter =
      (assemble_addr a1 a2 a3 + 65536 - 2) % 65536 := by
  simp only [exec, Chip8.set_addr]

theorem exec_call_sp (a1 a2 a3 rand : Nat) (s : Chip8) :
    (exec (.op2nnn a1 a2 a3) rand s).stack_pointer = (s.stack_pointer + 1) % 256 := by
  simp only [exec, Chip8.set_addr]

theorem exec_call_stack (a1 a2 a3 rand : Nat) (s : Chip8) :
    (exec (.op2nnn a1 a2 a3) rand s).stack =
      updFn s.stack ((s.stack_pointer + 1) % 256) s.program_counter := by
  simp only [exec, Chip8.set_addr]

theorem exec_ret_pc (rand : Nat) (t : Chip8) :
    (exec .op00EE rand t).program_counter = t.stack t.stack_pointer := by
  simp only [exec]

theorem exec_ret_sp (rand : Nat) (t : Chip8) :
    (exec .op00EE rand t).stack_pointer = (t.stack_pointer + 255) % 256 := by
  simp only [exec]

theorem and_255_of_lt (m : Nat) (h : m < 256) : m &&& 255 = m := by
  have h2 : m &&& 255 = m % 256 := by
    simpa using Nat.and_pow_two_sub_one_eq_mod m 8
  rw [h2, Nat.mod_eq_of_lt h]

theorem drawIdx_ne (px py : Nat) {i j : Nat} (hi : i < 16) (hj : j < 16) (hij : i ≠ j) :
    drawIdx px py i ≠ drawIdx px py j := by
  unfold drawIdx
  omega

theorem drawFold_fst_off (px py base : Nat) (mem : Nat → Nat) :
    ∀ n d c a, (∀ i, i < n → drawIdx px py i ≠ a) →
      ((List.range n).foldl (drawRow px py base mem) (d, c)).1 a = d a := by
  intro n
  induction n with
  | zero => intro d c a _; rfl
  | succ n ih =>
    intro d c a ha
    rw [List.range_succ, List.foldl_append]
    simp only [List.foldl_cons, List.foldl_nil, drawRow]
    rw [updFn_ne _ _ _ _ (Ne.symm (ha n (Nat.lt_succ_self n)))]
    exact ih d c a (fun i hi => ha i (Nat.lt_succ_of_lt hi))

theorem drawFold_fst_at (px py base : Nat) (mem : Nat → Nat) :
    ∀ n d c j, j < n → n ≤ 16 →
      ((List.range n).foldl (drawRow px py base mem) (d, c)).1 (drawIdx px py j) =
        d (drawIdx px py j) ^^^ mem (base + j) := by
  intro n
  induction n with
  | zero => intro d c j h _; exact absurd h (Nat.not_lt_zero j)
  | succ n ih =>
    intro d c j hj hn
    rw [List.range_succ, List.foldl_append]
    simp only [List.foldl_cons, List.foldl_nil, drawRow]
    rcases Nat.lt_or_ge j n with h | h
    · rw [updFn_ne _ _ _ _ (drawIdx_ne px py (by omega) (by omega) (by omega))]
      exact ih d c j h (by omega)
    · have hjn : j = n := by omega
      subst hjn
      rw [updFn_self]
      rw [drawFold_fst_off px py base mem j d c _
        (fun i hi => drawIdx_ne px py (by omega) (by omega) (by omega))]

theorem drawFold_snd (px py base : Nat) (mem : Nat → Nat) :
    ∀ n d c, n ≤ 16 →
      ((List.range n).foldl (drawRow px py base mem) (d, c)).2 =
        (c || (List.range n).any (fun i =>
          decide ((d (drawIdx px py i) &&&
            ((d (drawIdx px py i) ^^^ mem (base + i)) ^^^ 255)) ≠ 0))) := by
  intro n
  induction n with
  | zero => intro d c _; simp
  | succ n ih =>
    intro d c hn
    rw [List.range_succ, List.foldl_append, List.any_append]
    simp only [List.foldl_cons, List.foldl_nil, List.any_cons, List.any_nil, drawRow]
    rw [drawFold_fst_off px py base mem n d c _
      (fun i hi => drawIdx_ne px py (by omega) (by omega) (by omega))]
    rw [ih d c (by omega)]
    simp [Bool.or_assoc]

theorem draw_shape (rand : Nat) (t : Chip8) (x y n : Nat)
    (hf : t.fetchNibbles = (0x0D, x, y, n)) :
    Chip8.step rand t = Except.ok (Chip8.finishCycle (exec (.opDxyn x y n) rand t)) ∧
    (Chip8.finishCycle (exec (.opDxyn x y n) rand t)).display =
      ((List.range n).foldl (drawRow (t.registers x) (t.registers y) t.i t.memory)
        (t.display, false)).1 ∧
    (Chip8.finishCycle (exec (.opDxyn x y n) rand t)).registers 15 =
      (if ((List.range n).foldl (drawRow (t.registers x) (t.registers y) t.i t.memory)
        (t.display, false)).2 then 1 else 0) ∧
    (∀ j, j ≠ 15 → (Chip8.finishCycle (exec (.opDxyn x y n) rand t)).registers j =
      t.registers j) ∧
    (Chip8.finishCycle (exec (.opDxyn x y n) rand t)).memory = t.memory ∧
    (Chip8.finishCycle (exec (.opDxyn x y n) rand t)).i = t.i ∧
    (Chip8.finishCycle (exec (.opDxyn x y n) rand t)).program_counter =
      (t.program_counter + 2) % 65536 := by
  have hreg : (exec (.opDxyn x y n) rand t).registers =
      updFn t.registers 15 (if ((List.range n).foldl
        (drawRow (t.registers x) (t.registers y) t.i t.memory) (t.display, false)).2
        then 1 else 0) := by
    simp only [exec]
  have hdisp : (exec (.opDxyn x y n) rand t).display =
      ((List.range n).foldl (drawRow (t.registers x) (t.registers y) t.i t.memory)
        (t.display, false)).1 := by
    simp only [exec]
  have hmem : (exec (.opDxyn x y n) rand t).memory = t.memory := by simp only [exec]
  have hi : (exec (.opDxyn x y n) rand t).i = t.i := by simp only [exec]
  have hpc : (exec (.opDxyn x y n) rand t).program_counter = t.program_counter := by
    simp only [exec]
  refine ⟨step_of_decode rand t _ _ _ _ (.opDxyn x y n) hf rfl, ?_, ?_, ?_, ?_, ?_, ?_⟩
  · rw [finishCycle_display, hdisp]
  · rw [finishCycle_registers, hreg, updFn_self]
  · intro j hj
    rw [finishCycle_registers, hreg, updFn_ne _ _ _ _ hj]
  · rw [finishCycle_memory, hmem]
  · rw [finishCycle_i, hi]
  · rw [finishCycle_pc, hpc]

theorem skipOutcome_of (s : Chip8) (cond : Prop) [Decidable cond]
    (hpc : s.program_counter + 4 < 65536) :
    SkipOutcome s (Chip8.finishCycle
      (if cond then { s with program_counter := (s.program_counter + 2) % 65536 } else s))
      cond := by
  by_cases h : cond <;>
    simp [SkipOutcome, Chip8.finishCycle, h] <;> omega

theorem storeFold_at (regs : Nat → Nat) (base : Nat) :
    ∀ n mem j, j < n →
      ((List.range n).foldl (fun m k => updFn m (base + k) (regs k)) mem) (base + j) = regs j := by
  intro n
  induction n with
  | zero => exact fun mem j h => absurd h (Nat.not_lt_zero j)
  | succ n ih =>
    intro mem j hj
    rw [List.range_succ, List.foldl_append]
    simp only [List.foldl_cons, List.foldl_nil]
    rcases Nat.lt_or_ge j n with h | h
    · rw [updFn_ne _ _ _ _ (by omega)]
      exact ih mem j h
    · have hjn : j = n := by omega
      subst hjn
      exact updFn_self _ _ _

theorem storeFold_off (regs : Nat → Nat) (base : Nat) :
    ∀ n mem a, (∀ j, j < n → a ≠ base + j) →
      ((List.range n).foldl (fun m k => updFn m (base + k) (regs k)) mem) a = mem a := by
  intro n
  induction n with
  | zero => exact fun mem a _ => rfl
  | succ n ih =>
    intro mem a ha
    rw [List.range_succ, List.foldl_append]
    simp only [List.foldl_cons, List.foldl_nil]
    rw [updFn_ne _ _ _ _ (ha n (Nat.lt_succ_self n))]
    exact ih mem a (fun j hj => ha j (Nat.lt_succ_of_lt hj))

theorem loadFold_at (mem : Nat → Nat) (base : Nat) :
    ∀ n regs j, j < n →
      ((List.range n).foldl (fun r k => updFn r k (mem (base + k))) regs) j = mem (base + j) := by
  intro n
  induction n with
  | zero => exact fun regs j h => absurd h (Nat.not_lt_zero j)
  | succ n ih =>
    intro regs j hj
    rw [List.range_succ, List.foldl_append]
    simp only [List.foldl_cons, List.foldl_nil]
    rcases Nat.lt_or_ge j n with h | h
    · rw [updFn_ne _ _ _ _ (by omega)]
      exact ih regs j h
    · have hjn : j = n := by omega
      subst hjn
      exact updFn_self _ _ _

theorem loadFold_off (mem : Nat → Nat) (base : Nat) :
    ∀ n regs a, n ≤ a →
      ((List.range n).foldl (fun r k => updFn r k (mem (base + k))) regs) a = regs a := by
  intro n
  induction n with
  | zero => exact fun regs a _ => rfl
  | succ n ih =>
    intro regs a ha
    rw [List.range_succ, List.foldl_append]
    simp only [List.foldl_cons, List.foldl_nil]
    rw [updFn_ne _ _ _ _ (by omega)]
    exact ih regs a (by omega)

/-- C1 (amended): when the fetched instruction is Fx29, `step` sets the I
register to 5 times the register index nibble x encoded in the instruction
(not the value held in Vx) and advances the program counter by 2. -/
theorem claim_C1_fx29 (rand : Nat) (s : Chip8) (x : Nat)
    (hf : s.fetchNibbles = (0x0F, x, 2, 9))
    (hpc : s.program_counter + 2 < 65536) :
    ∃ s', Chip8.step rand s = Except.ok s' ∧ s'.i = x * 5 ∧
      s'.program_counter = s.program_counter + 2 := by
  have hx : x ≤ 15 := fetch_lo1_le s _ _ _ _ hf
  refine ⟨_, step_of_decode rand s _ _ _ _ (.opFx29 x) hf rfl, ?_, ?_⟩
  · simp only [exec, Chip8.finishCycle]
    omega
  · simp only [exec, Chip8.finishCycle]
    omega

/-- C1 counterexample: at `c1state` the fetched instruction is F029 and
V0 = 7, but after `step` the I register is 0 = x × 5, not 35 = V0 × 5 as
the claim states. -/
theorem claim_C1_counterexample :
    ∃ s', Chip8.step 0 c1state = Except.ok s' ∧
      c1state.fetchNibbles = (0x0F, 0, 2, 9) ∧
      c1state.registers 0 = 7 ∧ s'.i = 0 ∧ s'.i ≠ 5 * c1state.registers 0 :=
  ⟨_, rfl, rfl, rfl, rfl, by decide⟩

/-- C1 witness: the amended theorem applied at the concrete state. -/
theorem claim_C1_witness :
    ∃ s', Chip8.step 0 c1state = Except.ok s' ∧ s'.i = 0 * 5 ∧
      s'.program_counter = c1state.program_counter + 2 :=
  claim_C1_fx29 0 c1state 0 (by decide) (by decide)

/-- C2 (amended): when the fetched nibble tuple matches none of the
implemented opcode patterns, `step` signals a fatal unimplemented-
instruction error identifying the four nibbles (but not the program
counter), and never returns a successor state: the unknown instruction
is not treated as a no-op with PC advanced past it. -/
theorem claim_C2_unimplemented (rand : Nat) (s : Chip8) (n1 n2 n3 n4 : Nat)
    (hf : s.fetchNibbles = (n1, n2, n3, n4))
    (hd : decode n1 n2 n3 n4 = none) :
    Chip8.step rand s = Except.error (Chip8Error.unimplemented n1 n2 n3 n4) ∧
      ∀ s', Chip8.step rand s ≠ Except.ok s' := by
  have h := step_of_decode_none rand s n1 n2 n3 n4 hf hd
  exact ⟨h, fun s' hok => by rw [h] at hok; exact Except.noConfusion hok⟩

/-- C2 counterexample: two machines fetching the unimplemented tuple
(0,1,2,3) at different program counters produce the very same error
value, so the signalled condition cannot identify the program counter. -/
theorem claim_C2_counterexample :
    c2stateA.program_counter ≠ c2stateB.program_counter ∧
    c2stateA.fetchNibbles = (0, 1, 2, 3) ∧
    c2stateB.fetchNibbles = (0, 1, 2, 3) ∧
    Chip8.step 0 c2stateA = Chip8.step 0 c2stateB ∧
    Chip8.step 0 c2stateA = Except.error (Chip8Error.unimplemented 0 1 2 3) :=
  ⟨by decide, rfl, rfl, rfl, rfl⟩

/-- C2 witness: the amended theorem applied at the concrete state. -/
theorem claim_C2_witness :
    Chip8.step 0 c2stateA = Except.error (Chip8Error.unimplemented 0 1 2 3) ∧
      ∀ s', Chip8.step 0 c2stateA ≠ Except.ok s' :=
  claim_C2_unimplemented 0 c2stateA 0 1 2 3 (by decide) (by decide)

/-- C3: for any ROM of length between 1 and 3584, `new` yields a machine
whose memory holds the ROM bytes from 0x200, the 80-byte font table in
[0,80), zeroed registers, stack and display, I = 0, SP = 0, zero timers,
and PC = 0x200. -/
theorem claim_C3_new (rom : List Nat) (h1 : 1 ≤ rom.length) (h2 : rom.length ≤ 3584) :
    (∀ k, k < rom.length → (Chip8.new rom).memory (0x200 + k) = rom.getD k 0) ∧
    (∀ a, a < 80 → (Chip8.new rom).memory a = CHARACTERS.getD a 0) ∧
    (∀ j, (Chip8.new rom).registers j = 0) ∧
    (∀ j, (Chip8.new rom).stack j = 0) ∧
    (∀ j, (Chip8.new rom).display j = 0) ∧
    (Chip8.new rom).i = 0 ∧
    (Chip8.new rom).stack_pointer = 0 ∧
    (Chip8.new rom).delay = 0 ∧
    (Chip8.new rom).sound = 0 ∧
    (Chip8.new rom).program_counter = 0x200 := by
  refine ⟨?_, ?_, fun j => rfl, fun j => rfl, fun j => rfl, rfl, rfl, rfl, rfl, rfl⟩
  · intro k hk
    show writeSlice (writeSlice (fun _ => 0) 0x200 rom) 0 CHARACTERS (0x200 + k) = rom.getD k 0
    have hc : CHARACTERS.length = 80 := rfl
    unfold writeSlice
    rw [hc]
    rw [if_neg (by omega), if_pos (by omega)]
    congr 1
    omega
  · intro a ha
    show writeSlice (writeSlice (fun _ => 0) 0x200 rom) 0 CHARACTERS a = CHARACTERS.getD a 0
    have hc : CHARACTERS.length = 80 := rfl
    unfold writeSlice
    rw [hc]
    rw [if_pos (by omega)]
    congr 1

/-- C3 witness: the theorem applied to the one-byte ROM [0xAB]. -/
theorem claim_C3_witness :
    (Chip8.new [0xAB]).memory 0x200 = 0xAB ∧
    (Chip8.new [0xAB]).memory 0 = 0xF0 ∧
    (Chip8.new [0xAB]).program_counter = 0x200 := by
  obtain ⟨hm, hf, -, -, -, -, -, -, -, hpc⟩ := claim_C3_new [0xAB] (by decide) (by decide)
  refine ⟨?_, ?_, hpc⟩
  · simpa using hm 0 (by decide)
  · simpa using hf 0 (by decide)

/-- C8: executing RET (00EE) with stack pointer 0 wraps the stack pointer
to 0xFF by unsigned 8-bit subtraction and leaves the program counter at
stack[0] + 2 once the step completes. -/
theorem claim_C8_ret_underflow (rand : Nat) (s : Chip8)
    (hf : s.fetchNibbles = (0, 0, 0x0E, 0x0E))
    (hsp : s.stack_pointer = 0)
    (hpc : s.stack 0 + 2 < 65536) :
    ∃ s', Chip8.step rand s = Except.ok s' ∧ s'.stack_pointer = 0xFF ∧
      s'.program_counter = s.stack 0 + 2 := by
  refine ⟨_, step_of_decode rand s _ _ _ _ .op00EE hf rfl, ?_, ?_⟩
  · simp only [exec, Chip8.finishCycle, hsp]
  · simp only [exec, Chip8.finishCycle, hsp]
    omega

/-- C8 witness: the theorem applied at the concrete state with a RET at
PC and stack[0] = 0, yielding SP = 0xFF and PC = 2. -/
theorem claim_C8_witness :
    ∃ s', Chip8.step 0 c8state = Except.ok s' ∧ s'.stack_pointer = 0xFF ∧
      s'.program_counter = c8state.stack 0 + 2 :=
  claim_C8_ret_underflow 0 c8state (by decide) (by decide) (by decide)

/-- C4: a call 2nnn whose target nnn holds RET (00EE) returns after the
next step to call_site + 2, with the stack pointer incremented by 1 by
the call and restored by the return; and in the concrete four-deep
scenario `c4state` (calls at 0x200, 0x300, 0x400, 0x500, RETs from
0x600 back down) the four pre-call program counters are restored in
reverse (LIFO) order: 0x502, 0x402, 0x302, 0x202. -/
theorem claim_C4_call_ret (rand1 rand2 : Nat) (s : Chip8) (a1 a2 a3 : Nat)
    (hf : s.fetchNibbles = (2, a1, a2, a3))
    (hsp : s.stack_pointer < 15)
    (hr0 : s.memory (assemble_addr a1 a2 a3) = 0x00)
    (hr1 : s.memory ((assemble_addr a1 a2 a3 + 1) % 65536) = 0xEE)
    (hpc : s.program_counter + 2 < 65536) :
    (∃ s1 s2, Chip8.step rand1 s = Except.ok s1 ∧ Chip8.step rand2 s1 = Except.ok s2 ∧
      s1.program_counter = assemble_addr a1 a2 a3 ∧
      s1.stack_pointer = s.stack_pointer + 1 ∧
      s2.program_counter = s.program_counter + 2 ∧
      s2.stack_pointer = s.stack_pointer) ∧
    ((stepN (fun _ => 0) 1 c4state).map Chip8.program_counter = Except.ok 0x300 ∧
     (stepN (fun _ => 0) 2 c4state).map Chip8.program_counter = Except.ok 0x400 ∧
     (stepN (fun _ => 0) 3 c4state).map Chip8.program_counter = Except.ok 0x500 ∧
     (stepN (fun _ => 0) 4 c4state).map Chip8.program_counter = Except.ok 0x600 ∧
     (stepN (fun _ => 0) 4 c4state).map Chip8.stack_pointer = Except.ok 4 ∧
     (stepN (fun _ => 0) 5 c4state).map Chip8.program_counter = Except.ok 0x502 ∧
     (stepN (fun _ => 0) 6 c4state).map Chip8.program_counter = Except.ok 0x402 ∧
     (stepN (fun _ => 0) 7 c4state).map Chip8.program_counter = Except.ok 0x302 ∧
     (stepN (fun _ => 0) 8 c4state).map Chip8.program_counter = Except.ok 0x202 ∧
     (stepN (fun _ => 0) 8 c4state).map Chip8.stack_pointer = Except.ok 0) := by
  constructor
  · have haddr : assemble_addr a1 a2 a3 < 65536 := Nat.mod_lt _ (by norm_num)
    have hpc1eq : ((assemble_addr a1 a2 a3 + 65536 - 2) % 65536 + 2) % 65536 =
        assemble_addr a1 a2 a3 := by omega
    have hmem1 : (Chip8.finishCycle (exec (.op2nnn a1 a2 a3) rand1 s)).memory = s.memory := by
      rw [finishCycle_memory, exec_call_memory]
    have hpc1 : (Chip8.finishCycle (exec (.op2nnn a1 a2 a3) rand1 s)).program_counter =
        assemble_addr a1 a2 a3 := by
      rw [finishCycle_pc, exec_call_pc, hpc1eq]
    have hf2 : (Chip8.finishCycle (exec (.op2nnn a1 a2 a3) rand1 s)).fetchNibbles =
        (0, 0, 0x0E, 0x0E) := by
      simp only [Chip8.fetchNibbles]
      rw [hmem1, hpc1, hr0, hr1]
      decide
    refine ⟨_, _, step_of_decode rand1 s _ _ _ _ (.op2nnn a1 a2 a3) hf rfl,
      step_of_decode rand2 _ _ _ _ _ .op00EE hf2 rfl, hpc1, ?_, ?_, ?_⟩
    · rw [finishCycle_sp, exec_call_sp]
      omega
    · rw [finishCycle_pc, exec_ret_pc, finishCycle_stack, exec_call_stack,
        finishCycle_sp, exec_call_sp, updFn_self]
      omega
    · rw [finishCycle_sp, exec_ret_sp, finishCycle_sp, exec_call_sp]
      omega
  · exact ⟨rfl, rfl, rfl, rfl, rfl, rfl, rfl, rfl, rfl, rfl⟩

/-- C4 witness: the round-trip half applied at the concrete state whose
call at 0x200 targets a RET at 0x300. -/
theorem claim_C4_witness :
    ∃ s1 s2, Chip8.step 0 c4wstate = Except.ok s1 ∧ Chip8.step 0 s1 = Except.ok s2 ∧
      s1.program_counter = assemble_addr 3 0 0 ∧
      s1.stack_pointer = c4wstate.stack_pointer + 1 ∧
      s2.program_counter = c4wstate.program_counter + 2 ∧
      s2.stack_pointer = c4wstate.stack_pointer :=
  (claim_C4_call_ret 0 0 c4wstate 3 0 0 (by decide) (by decide) (by decide) (by decide)
    (by decide)).1

/-- C5: for each instruction of the skip family 3xnn, 4xnn, 5xy0, 9xy0,
one step advances the program counter by 4 when the skip condition holds
(Vx = nn, Vx ≠ nn, Vx = Vy, Vx ≠ Vy respectively) and by 2 otherwise,
leaving registers, memory, stack, display, I, input and the stack pointer
unchanged, with only the end-of-step timer decrement applied. -/
theorem claim_C5_skip_family (rand : Nat) (s : Chip8) (n1 x n3 n4 : Nat)
    (hf : s.fetchNibbles = (n1, x, n3, n4))
    (hpc : s.program_counter + 4 < 65536) :
    (n1 = 3 → ∃ s', Chip8.step rand s = Except.ok s' ∧
      SkipOutcome s s' (s.registers x = (n3 <<< 4) ||| n4)) ∧
    (n1 = 4 → ∃ s', Chip8.step rand s = Except.ok s' ∧
      SkipOutcome s s' (s.registers x ≠ (n3 <<< 4) ||| n4)) ∧
    (n1 = 5 ∧ n4 = 0 → ∃ s', Chip8.step rand s = Except.ok s' ∧
      SkipOutcome s s' (s.registers x = s.registers n3)) ∧
    (n1 = 9 ∧ n4 = 0 → ∃ s', Chip8.step rand s = Except.ok s' ∧
      SkipOutcome s s' (s.registers x ≠ s.registers n3)) := by
  refine ⟨?_, ?_, ?_, ?_⟩
  · rintro rfl
    exact ⟨_, step_of_decode rand s _ _ _ _ (.op3xnn x n3 n4) hf rfl, skipOutcome_of s _ hpc⟩
  · rintro rfl
    exact ⟨_, step_of_decode rand s _ _ _ _ (.op4xnn x n3 n4) hf rfl, skipOutcome_of s _ hpc⟩
  · rintro ⟨rfl, rfl⟩
    exact ⟨_, step_of_decode rand s _ _ _ _ (.op5xy x n3) hf rfl, skipOutcome_of s _ hpc⟩
  · rintro ⟨rfl, rfl⟩
    exact ⟨_, step_of_decode rand s _ _ _ _ (.op9xy0 x n3) hf rfl, skipOutcome_of s _ hpc⟩

/-- C5 witness: the 3xnn part applied at the concrete state (V0 = 0,
nn = 0, so the skip fires). -/
theorem claim_C5_witness :
    ∃ s', Chip8.step 0 c5state = Except.ok s' ∧
      SkipOutcome c5state s' (c5state.registers 0 = (0 <<< 4) ||| 0) :=
  (claim_C5_skip_family 0 c5state 3 0 0 0 (by decide) (by decide)).1 rfl

/-- C9: decode is more permissive than the published table: 5xyk with any
last nibble k decodes to the 5xy0 skip (and executes as such), and
8xy6/8xyE discard the y nibble entirely, so any two y values decode and
execute identically. -/
theorem claim_C9_permissive_decode :
    (∀ x y k, decode 5 x y k = some (Op.op5xy x y)) ∧
    (∀ x y y', decode 8 x y 6 = decode 8 x y' 6 ∧ decode 8 x y 0x0E = decode 8 x y' 0x0E) ∧
    (∀ rand s x y k, s.fetchNibbles = (5, x, y, k) →
      s.program_counter + 4 < 65536 →
      ∃ s', Chip8.step rand s = Except.ok s' ∧
        SkipOutcome s s' (s.registers x = s.registers y)) ∧
    (∀ rand s x y, s.fetchNibbles = (8, x, y, 6) →
      Chip8.step rand s = Except.ok (Chip8.finishCycle (exec (Op.op8xy6 x) rand s))) ∧
    (∀ rand s x y, s.fetchNibbles = (8, x, y, 0x0E) →
      Chip8.step rand s = Except.ok (Chip8.finishCycle (exec (Op.op8xyE x) rand s))) := by
  refine ⟨fun x y k => rfl, fun x y y' => ⟨rfl, rfl⟩, ?_, ?_, ?_⟩
  · intro rand s x y k hf hpc
    exact ⟨_, step_of_decode rand s _ _ _ _ (.op5xy x y) hf rfl, skipOutcome_of s _ hpc⟩
  · intro rand s x y hf
    exact step_of_decode rand s _ _ _ _ (.op8xy6 x) hf rfl
  · intro rand s x y hf
    exact step_of_decode rand s _ _ _ _ (.op8xyE x) hf rfl

/-- C9 witness: the 5xyk part applied at the concrete state whose
instruction is 0x5123 (k = 3 ≠ 0), which still skips since V1 = V2. -/
theorem claim_C9_witness :
    ∃ s', Chip8.step 0 c9state = Except.ok s' ∧
      SkipOutcome c9state s' (c9state.registers 1 = c9state.registers 2) :=
  claim_C9_permissive_decode.2.2.1 0 c9state 1 2 3 (by decide) (by decide)

/-- C6: in every successful step, each timer ends as its execute-phase
value minus 1 when that value is nonzero and stays 0 when it is 0,
so neither timer ever wraps below zero. -/
theorem claim_C6_timers (rand : Nat) (s : Chip8) (op : Op)
    (hd : decode s.fetchNibbles.1 s.fetchNibbles.2.1 s.fetchNibbles.2.2.1
      s.fetchNibbles.2.2.2 = some op) :
    Chip8.step rand s = Except.ok (Chip8.finishCycle (exec op rand s)) ∧
    ((Chip8.finishCycle (exec op rand s)).delay =
      if 0 < (exec op rand s).delay then (exec op rand s).delay - 1
      else (exec op rand s).delay) ∧
    ((Chip8.finishCycle (exec op rand s)).sound =
      if 0 < (exec op rand s).sound then (exec op rand s).sound - 1
      else (exec op rand s).sound) ∧
    ((exec op rand s).delay = 0 → (Chip8.finishCycle (exec op rand s)).delay = 0) ∧
    ((exec op rand s).sound = 0 → (Chip8.finishCycle (exec op rand s)).sound = 0) ∧
    (Chip8.finishCycle (exec op rand s)).delay ≤ (exec op rand s).delay ∧
    (Chip8.finishCycle (exec op rand s)).sound ≤ (exec op rand s).sound := by
  refine ⟨step_of_decode rand s _ _ _ _ op rfl hd, rfl, rfl, ?_, ?_, ?_, ?_⟩
  · intro h
    simp [Chip8.finishCycle, h]
  · intro h
    simp [Chip8.finishCycle, h]
  · simp only [Chip8.finishCycle]
    split <;> omega
  · simp only [Chip8.finishCycle]
    split <;> omega

/-- C6 witness: the theorem applied at the concrete state (6xnn fetched,
delay = 3, sound = 0): the delay drops to 2, the sound stays 0. -/
theorem claim_C6_witness :
    Chip8.step 0 c6state = Except.ok (Chip8.finishCycle (exec (Op.op6xnn 0 0 5) 0 c6state)) ∧
    ((Chip8.finishCycle (exec (Op.op6xnn 0 0 5) 0 c6state)).delay =
      if 0 < (exec (Op.op6xnn 0 0 5) 0 c6state).delay
      then (exec (Op.op6xnn 0 0 5) 0 c6state).delay - 1
      else (exec (Op.op6xnn 0 0 5) 0 c6state).delay) ∧
    ((Chip8.finishCycle (exec (Op.op6xnn 0 0 5) 0 c6state)).sound =
      if 0 < (exec (Op.op6xnn 0 0 5) 0 c6state).sound
      then (exec (Op.op6xnn 0 0 5) 0 c6state).sound - 1
      else (exec (Op.op6xnn 0 0 5) 0 c6state).sound) ∧
    ((exec (Op.op6xnn 0 0 5) 0 c6state).delay = 0 →
      (Chip8.finishCycle (exec (Op.op6xnn 0 0 5) 0 c6state)).delay = 0) ∧
    ((exec (Op.op6xnn 0 0 5) 0 c6state).sound = 0 →
      (Chip8.finishCycle (exec (Op.op6xnn 0 0 5) 0 c6state)).sound = 0) ∧
    (Chip8.finishCycle (exec (Op.op6xnn 0 0 5) 0 c6state)).delay ≤
      (exec (Op.op6xnn 0 0 5) 0 c6state).delay ∧
    (Chip8.finishCycle (exec (Op.op6xnn 0 0 5) 0 c6state)).sound ≤
      (exec (Op.op6xnn 0 0 5) 0 c6state).sound :=
  claim_C6_timers 0 c6state (Op.op6xnn 0 0 5) (by decide)

/-- C10: Fx55 stores V0..Vx into memory[I..I+x] and nothing else (I, all
registers, stack and display untouched, no memory outside [I, I+x]
written); Fx65 loads V0..Vx from memory[I..I+x], leaves registers above
Vx and all memory untouched, and leaves I unchanged (no post-increment
in either case). -/
theorem claim_C10_bulk_transfer (rand : Nat) (s : Chip8) (x : Nat)
    (hb : s.i + x + 1 ≤ 4096) :
    (s.fetchNibbles = (0x0F, x, 5, 5) →
      ∃ s', Chip8.step rand s = Except.ok s' ∧
        (∀ j, j ≤ x → s'.memory (s.i + j) = s.registers j) ∧
        (∀ a, (∀ j, j ≤ x → a ≠ s.i + j) → s'.memory a = s.memory a) ∧
        s'.i = s.i ∧ s'.registers = s.registers ∧ s'.stack = s.stack ∧
        s'.display = s.display) ∧
    (s.fetchNibbles = (0x0F, x, 6, 5) →
      ∃ s', Chip8.step rand s = Except.ok s' ∧
        (∀ j, j ≤ x → s'.registers j = s.memory (s.i + j)) ∧
        (∀ j, x < j → s'.registers j = s.registers j) ∧
        s'.memory = s.memory ∧ s'.i = s.i) := by
  constructor
  · intro hf
    refine ⟨_, step_of_decode rand s _ _ _ _ (.opFx55 x) hf rfl, ?_, ?_, rfl, rfl, rfl, rfl⟩
    · intro j hj
      exact storeFold_at s.registers s.i (x + 1) s.memory j (by omega)
    · intro a ha
      exact storeFold_off s.registers s.i (x + 1) s.memory a (fun j hj => ha j (by omega))
  · intro hf
    refine ⟨_, step_of_decode rand s _ _ _ _ (.opFx65 x) hf rfl, ?_, ?_, rfl, rfl⟩
    · intro j hj
      exact loadFold_at s.memory s.i (x + 1) s.registers j (by omega)
    · intro j hj
      exact loadFold_off s.memory s.i (x + 1) s.registers j (by omega)

/-- C10 witness: the Fx55 part applied at the concrete state (x = 1,
I = 0x300, V0 = 0xAA, V1 = 0xBB). -/
theorem claim_C10_witness :
    ∃ s', Chip8.step 0 c10state = Except.ok s' ∧
      (∀ j, j ≤ 1 → s'.memory (c10state.i + j) = c10state.registers j) ∧
      (∀ a, (∀ j, j ≤ 1 → a ≠ c10state.i + j) → s'.memory a = c10state.memory a) ∧
      s'.i = c10state.i ∧ s'.registers = c10state.registers ∧
      s'.stack = c10state.stack ∧ s'.display = c10state.display :=
  (claim_C10_bulk_transfer 0 c10state 1 (by decide)).1 (by decide)

/-- C7 (amended): starting from an all-zero display, executing the same
Dxyn instruction twice in succession (same Vx, Vy, n, I, and sprite bytes)
leaves the display all-zero again; the second draw sets VF = 1 when at
least one sprite byte in memory[I..I+n] is nonzero (some pixel was really
set and then cleared), and VF = 0 when all the sprite bytes are zero. -/
theorem claim_C7_draw_twice (rand1 rand2 : Nat) (s : Chip8) (x y n : Nat)
    (hf : s.fetchNibbles = (0x0D, x, y, n))
    (hx : x ≠ 15) (hy : y ≠ 15)
    (hd0 : ∀ k, s.display k = 0)
    (hmem : ∀ a, s.memory a < 256)
    (hpc : s.program_counter + 4 < 65536)
    (hins1 : s.memory (s.program_counter + 2) = s.memory s.program_counter)
    (hins2 : s.memory (s.program_counter + 3) = s.memory ((s.program_counter + 1) % 65536)) :
    ∃ s1 s2, Chip8.step rand1 s = Except.ok s1 ∧ Chip8.step rand2 s1 = Except.ok s2 ∧
      (∀ k, s2.display k = 0) ∧
      ((∃ i, i < n ∧ s.memory (s.i + i) ≠ 0) → s2.registers 15 = 1) ∧
      ((∀ i, i < n → s.memory (s.i + i) = 0) → s2.registers 15 = 0) := by
  have hn : n ≤ 15 := fetch_lo2_le s _ _ _ _ hf
  obtain ⟨h1, h1disp, h1r15, h1rj, h1mem, h1i, h1pc⟩ := draw_shape rand1 s x y n hf
  set s1 := Chip8.finishCycle (exec (.opDxyn x y n) rand1 s) with hs1
  have hpx : s1.registers x = s.registers x := h1rj x hx
  have hpy : s1.registers y = s.registers y := h1rj y hy
  have hpc1 : s1.program_counter = s.program_counter + 2 := by
    rw [h1pc]
    omega
  have hf2 : s1.fetchNibbles = (0x0D, x, y, n) := by
    have e1 : s1.memory s1.program_counter = s.memory s.program_counter := by
      rw [h1mem, hpc1, hins1]
    have e2 : s1.memory ((s1.program_counter + 1) % 65536) =
        s.memory ((s.program_counter + 1) % 65536) := by
      rw [h1mem, hpc1]
      have e3 : (s.program_counter + 2 + 1) % 65536 = s.program_counter + 3 := by omega
      rw [e3, hins2]
    have hfx := hf
    simp only [Chip8.fetchNibbles] at hfx ⊢
    rw [e1, e2]
    exact hfx
  obtain ⟨h2, h2disp, h2r15, h2rj, h2mem, h2i, h2pc⟩ := draw_shape rand2 s1 x y n hf2
  rw [hpx, hpy, h1mem, h1i, h1disp] at h2disp h2r15
  refine ⟨s1, _, h1, h2, ?_, ?_, ?_⟩
  · intro k
    rw [h2disp]
    by_cases hcase : ∃ j, j < n ∧ drawIdx (s.registers x) (s.registers y) j = k
    · obtain ⟨j, hjn, hidx⟩ := hcase
      rw [← hidx]
      rw [drawFold_fst_at (s.registers x) (s.registers y) s.i s.memory n _ false j hjn
        (by omega)]
      rw [drawFold_fst_at (s.registers x) (s.registers y) s.i s.memory n s.display false j
        hjn (by omega)]
      rw [hd0, Nat.zero_xor, Nat.xor_self]
    · push_neg at hcase
      rw [drawFold_fst_off (s.registers x) (s.registers y) s.i s.memory n _ false k
        (fun j hj => hcase j hj)]
      rw [drawFold_fst_off (s.registers x) (s.registers y) s.i s.memory n s.display false k
        (fun j hj => hcase j hj)]
      exact hd0 k
  · rintro ⟨i, hi, hne⟩
    rw [h2r15]
    have hsnd : ((List.range n).foldl
        (drawRow (s.registers x) (s.registers y) s.i s.memory)
        (((List.range n).foldl (drawRow (s.registers x) (s.registers y) s.i s.memory)
          (s.display, false)).1, false)).2 = true := by
      rw [drawFold_snd (s.registers x) (s.registers y) s.i s.memory n _ false (by omega)]
      simp only [Bool.false_or, List.any_eq_true]
      refine ⟨i, List.mem_range.mpr hi, ?_⟩
      rw [drawFold_fst_at (s.registers x) (s.registers y) s.i s.memory n s.display false i
        hi (by omega)]
      rw [hd0, Nat.zero_xor, Nat.xor_self, Nat.zero_xor]
      rw [and_255_of_lt (s.memory (s.i + i)) (hmem _)]
      exact decide_eq_true hne
    rw [hsnd]
    rfl
  · intro hz
    rw [h2r15]
    have hsnd : ((List.range n).foldl
        (drawRow (s.registers x) (s.registers y) s.i s.memory)
        (((List.range n).foldl (drawRow (s.registers x) (s.registers y) s.i s.memory)
          (s.display, false)).1, false)).2 = false := by
      rw [drawFold_snd (s.registers x) (s.registers y) s.i s.memory n _ false (by omega)]
      simp only [Bool.false_or, List.any_eq_false]
      intro i hi
      rw [List.mem_range] at hi
      rw [drawFold_fst_at (s.registers x) (s.registers y) s.i s.memory n s.display false i
        hi (by omega)]
      rw [hd0, Nat.zero_xor, hz i hi]
      decide
    rw [hsnd]
    rfl

/-- C7 counterexample: at `c7state` the instruction D001 (an all-zero
one-byte sprite) is fetched twice in a row from an all-zero display, yet
after the second draw VF = 0, not 1 as the claim states. -/
theorem claim_C7_counterexample :
    c7state.fetchNibbles = (0x0D, 0, 0, 1) ∧
    c7state.memory c7state.i = 0 ∧
    (∃ s1, Chip8.step 0 c7state = Except.ok s1 ∧ s1.fetchNibbles = (0x0D, 0, 0, 1) ∧
      ∃ s2, Chip8.step 0 s1 = Except.ok s2 ∧ s2.registers 15 = 0 ∧ s2.display 0 = 0) :=
  ⟨rfl, rfl, ⟨_, rfl, rfl, ⟨_, rfl, rfl, rfl⟩⟩⟩

/-- C7 witness: the amended theorem applied at the concrete state whose
sprite byte is 0xFF. -/
theorem claim_C7_witness :
    ∃ s1 s2, Chip8.step 0 c7wstate = Except.ok s1 ∧ Chip8.step 0 s1 = Except.ok s2 ∧
      (∀ k, s2.display k = 0) ∧
      ((∃ i, i < 1 ∧ c7wstate.memory (c7wstate.i + i) ≠ 0) → s2.registers 15 = 1) ∧
      ((∀ i, i < 1 → c7wstate.memory (c7wstate.i + i) = 0) → s2.registers 15 = 0) :=
  claim_C7_draw_twice 0 0 c7wstate 0 0 1 (by decide) (by decide) (by decide)
    (fun k => rfl)
    (writeSlice_lt _ _ _ 256
      (writeSlice_lt _ _ _ 256 (fun a => by norm_num) (by norm_num) (by decide))
      (by norm_num) (by decide))
    (by decide) (by decide) (by decide)

end Chipy8
